import Mathlib

/-!
Verification of the overcast deployment runner (overcast/runner/__init__.py).

The development shallowly embeds the orchestration engine: the resource
ledger and its reverse-order cleanup, the node build/poll/clean state
machine with its bounded retry loop, the shell-step retry policy, the
subnet-deletion conflict recovery, the existing-resource reconciliation,
and the security-group rule construction.  External cloud calls are
modelled by their observable results (ids handed back, exceptions raised),
threaded explicitly; the ledger is explicit state.  Python dictionaries
with string keys become association lists, Python string slicing and
endswith become operations on the character list of a Lean String.
-/

namespace Overcast

/-- The resource kinds the runner ever records in the ledger (the argument
of every record_resource call in the source). -/
inductive ResourceKind
  | keypair
  | network
  | subnet
  | secgroup
  | secgroup_rule
  | port
  | floatingip
  | volume
  | server
deriving DecidableEq, Repr

/-- One ledger line: resource kind and opaque id, as written by the
record_resource callback installed in main (one line per creation). -/
structure LedgerEntry where
  kind : ResourceKind
  id : String
deriving DecidableEq, Repr

/-- The ledger in creation order (the cleanup log, oldest first). -/
abbrev Ledger := List LedgerEntry

/-- A resource recorder: how one record_resource call transforms the ledger. -/
abbrev Recorder := Ledger → ResourceKind → String → Ledger

/-- The runner's record_resource once main has installed cleanup tracking
(main, lines 689-692): append one line per creation, in order. -/
def ledger_record : Recorder := fun ledger kind id => ledger ++ [⟨kind, id⟩]

/-- Node.record_resource as installed in Node.__init__ (line 135:
a lambda ignoring all arguments) and never reassigned anywhere else. -/
def node_record_resource : Recorder := fun ledger _ _ => ledger

/-- Python dict lookup on an association list (keys are unique in every
table the runner builds, so the match position is immaterial). -/
def dict_get (table : List (String × String)) (key : String) : Option String :=
  match table with
  | [] => none
  | e :: rest => if e.1 = key then some e.2 else dict_get rest key

/-- A port dict as create_port returns it and create_nics augments it:
the floating_ip field is present (some) exactly when the key was set. -/
structure Port where
  id : String
  fixed_ip : String
  mac : String
  network_name : String
  floating_ip : Option String
deriving DecidableEq, Repr

/-- One network attachment of a node template (an element of
node_info.networks in the stack). -/
structure NetworkAttachment where
  network : String
  assign_floating_ip : Bool
  securitygroups : List String
deriving DecidableEq, Repr

/-- The ids and addresses the cloud hands back for the port (and optional
floating IP) created at one NIC index. -/
structure PortIds where
  port_id : String
  fixed_ip : String
  mac : String
  fip_id : String
  fip_address : String
deriving DecidableEq, Repr

/-- create_floating_ip (lines 433-440): creates a floating IP and records
it through the runner's record_resource; returns (ledger, id, address). -/
def create_floating_ip (rec : Recorder) (fip_id fip_address : String)
    (ledger : Ledger) : Ledger × String × String :=
  (rec ledger .floatingip fip_id, fip_id, fip_address)

/-- Node.create_nics (lines 181-197): one port per attachment, each
recorded as kind port through the runner's recorder; when the attachment
asks for a floating IP, create_floating_ip (which records kind floatingip)
then associate, and the port dict gains the floating_ip key.  Returns
(ledger, ports list, nic port ids). -/
def create_nics (rec : Recorder) (pids : Nat → PortIds) :
    Nat → Ledger → List NetworkAttachment → Ledger × List Port × List String
  | _, ledger, [] => (ledger, [], [])
  | eth_idx, ledger, att :: rest =>
      let p := pids eth_idx
      let port0 : Port := ⟨p.port_id, p.fixed_ip, p.mac, att.network, none⟩
      let l1 := rec ledger .port port0.id
      let step :=
        if att.assign_floating_ip then
          ((create_floating_ip rec p.fip_id p.fip_address l1).1,
           { port0 with floating_ip := some p.fip_address })
        else (l1, port0)
      let r := create_nics rec pids (eth_idx + 1) step.1 rest
      (r.1, step.2 :: r.2.1, step.2.id :: r.2.2)

/-- Node.build (lines 199-221) with both recorders explicit: create the
NICs through the runner's recorder, then record the volume through the
NODE's own record_resource (line 207: self.record_resource, not
self.runner.record_resource), then create the server and record it through
the runner's recorder.  Returns (ledger, ports). -/
def Node.build (runner_rec node_rec : Recorder) (pids : Nat → PortIds)
    (volume_id server_id : String) (networks : List NetworkAttachment)
    (ledger : Ledger) : Ledger × List Port :=
  let r := create_nics runner_rec pids 0 ledger networks
  let l2 := node_rec r.1 .volume volume_id
  let l3 := runner_rec l2 .server server_id
  (l3, r.2.1)

/-- Node.build as the program actually wires it when cleanup tracking is
on: the runner's record_resource appends to the log, while the node's own
record_resource is the no-op from Node.__init__. -/
def Node.build_run (pids : Nat → PortIds) (volume_id server_id : String)
    (networks : List NetworkAttachment) (ledger : Ledger) : Ledger × List Port :=
  Node.build ledger_record node_record_resource pids volume_id server_id networks ledger

/-- The ledger lines create_nics appends from NIC index i on: one port
line per attachment, one floatingip line per attachment flagged for one. -/
def nic_entries (pids : Nat → PortIds) : Nat → List NetworkAttachment → Ledger
  | _, [] => []
  | i, att :: rest =>
      (⟨.port, (pids i).port_id⟩ ::
        (if att.assign_floating_ip then [⟨.floatingip, (pids i).fip_id⟩] else []))
      ++ nic_entries pids (i + 1) rest

/-- Everything one Node.build run appends to the ledger. -/
def build_delta (pids : Nat → PortIds) (networks : List NetworkAttachment)
    (server_id : String) : Ledger :=
  nic_entries pids 0 networks ++ [⟨.server, server_id⟩]

/-- The in-memory Node state relevant to its public accessors. -/
structure Node where
  name : String
  server_id : Option String
  fip_ids : List String
  ports : List Port
  attempts_left : Nat
deriving Repr

/-- The scan inside the Node.floating_ip property (lines 223-227): the
first port whose dict has the floating_ip key decides the value; falling
off the loop returns None. -/
def first_floating_ip : List Port → Option String
  | [] => none
  | p :: rest =>
      match p.floating_ip with
      | some a => some a
      | none => first_floating_ip rest

/-- Node.floating_ip (lines 223-227). -/
def Node.floating_ip (node : Node) : Option String :=
  first_floating_ip node.ports

/-- An observable event of the node lifecycle: one build() call or one
clean() call. -/
inductive Event
  | build
  | clean
deriving DecidableEq, Repr

/-- The node state the pending-node retry loop reads and writes, with the
event history kept for the statements: build() decrements attempts_left
(line 221), clean() leaves it alone (lines 163-179). -/
structure ErrNode where
  attempts_left : Nat
  trace : List Event
deriving DecidableEq, Repr

/-- One build() call as the retry loop sees it (line 221 decrements
attempts_left; the creations themselves are modelled separately). -/
def build1 (n : ErrNode) : ErrNode :=
  ⟨n.attempts_left - 1, n.trace ++ [Event.build]⟩

/-- One clean() call (lines 163-179: releases resources, attempts_left
untouched). -/
def clean1 (n : ErrNode) : ErrNode :=
  ⟨n.attempts_left, n.trace ++ [Event.clean]⟩

/-- The rounds of _poll_pending_nodes (lines 646-659) for a node whose
poll() answers ERROR every round: each round, if retry_count is nonzero
the node is cleaned, and then rebuilt when attempts remain (staying
pending for the next round); otherwise ProvisionFailedException is raised,
which this function models by returning the node state at the raise. -/
def errorLoop (retry_count : Nat) (n : ErrNode) : ErrNode :=
  if retry_count ≠ 0 then
    if h : (clean1 n).attempts_left ≠ 0 then errorLoop retry_count (build1 (clean1 n))
    else clean1 n
  else n
termination_by n.attempts_left
decreasing_by
  simp [build1, clean1] at *
  omega

/-- A node created by _create_node (lines 634-643: attempts_left starts at
retry_count + 1 from Node.__init__ line 147, then build() runs once) and
then polled by the pending loop with ERROR every round until the raise. -/
def provision_error_node (retry_count : Nat) : ErrNode :=
  errorLoop retry_count (build1 ⟨retry_count + 1, []⟩)

/-- What one dispatched delete does: returns, or raises (the message the
except clause prints). -/
inductive DeleteOutcome
  | ok
  | failed (msg : String)
deriving DecidableEq, Repr

/-- The loop of cleanup (main, lines 704-711) over the already-reversed
lines: dispatch the delete named by the resource kind; an exception from
the delete is printed and swallowed, and the loop continues either way.
The returned list is the trace of dispatched calls with their outcomes. -/
def cleanup_loop (delete : ResourceKind → String → DeleteOutcome) :
    List (ResourceKind × String) → List ((ResourceKind × String) × DeleteOutcome)
  | [] => []
  | entry :: rest => (entry, delete entry.1 entry.2) :: cleanup_loop delete rest

/-- cleanup (main, lines 698-711): read the ledger lines, reverse them,
and process each through the dispatch loop. -/
def cleanup (delete : ResourceKind → String → DeleteOutcome)
    (lines : List (ResourceKind × String)) :
    List ((ResourceKind × String) × DeleteOutcome) :=
  cleanup_loop delete lines.reverse

/-- The two failures run_cmd_once can raise (lines 116 and 121). -/
inductive CmdError
  | commandFailed
  | commandTimedOut
deriving DecidableEq, Repr

/-- One spawned process observed from outside: how long it runs before
exiting, and with which exit code. -/
structure AttemptBehavior where
  runsFor : Nat
  exitCode : Nat
deriving DecidableEq, Repr

/-- run_cmd_once (lines 94-121) over discrete time: the polling loop sees
the exit first when it happens by the deadline (exit code 0 succeeds,
nonzero raises CommandFailedException); once the clock passes a set
deadline without an exit, the process is killed and
CommandTimedOutException is raised.  Returns (result, clock at return). -/
def run_cmd_once (now : Nat) (deadline : Option Nat) (b : AttemptBehavior) :
    Except CmdError Unit × Nat :=
  match deadline with
  | none =>
      (if b.exitCode = 0 then .ok () else .error .commandFailed, now + b.runsFor)
  | some d =>
      if now + b.runsFor ≤ d then
        (if b.exitCode = 0 then .ok () else .error .commandFailed, now + b.runsFor)
      else
        (.error .commandTimedOut, d + 1)

/-- The four policy knobs of shell_step (lines 518-531), absent keys as
none/false/0 per the .get defaults. -/
structure ShellStepDetails where
  total_timeout : Option Nat
  timeout : Option Nat
  retry_delay : Nat
  retry_if_fails : Bool
deriving DecidableEq, Repr

/-- The deadline computed at the top of each shell_step loop iteration
(lines 542-550): per-attempt limit from now, capped by the overall
deadline; just the overall deadline when no per-attempt limit; none when
neither is set. -/
def shell_step_deadline (now : Nat) (overall : Option Nat) (limit : Option Nat) :
    Option Nat :=
  match limit with
  | some l =>
      match overall with
      | some od => some (min (now + l) od)
      | none => some (now + l)
  | none => overall

/-- The guard of the CommandTimedOutException handler (line 562):
time.time() + retry_delay < deadline, where deadline is the in-scope
deadline of the attempt that timed out.  A deadline of None compares
false in the source. -/
def slack_check (deadline : Option Nat) (now delay : Nat) : Bool :=
  match deadline with
  | some d => decide (now + delay < d)
  | none => false

/-- The retry loop of shell_step (lines 541-565), each attempt consuming
the next behavior: a failed command retries (after the retry-delay wait)
exactly when retry-if-fails; a timed-out command retries exactly when
retry-if-fails and the slack guard holds; anything else propagates.
Returns (result, clock, attempts made); none when the supplied behavior
list runs out before the loop does. -/
def shell_step_loop (d : ShellStepDetails) (overall : Option Nat) :
    Nat → List AttemptBehavior → Option (Except CmdError Unit × Nat × Nat)
  | _, [] => none
  | now, b :: rest =>
      let dl := shell_step_deadline now overall d.timeout
      match run_cmd_once now dl b with
      | (.ok _, t) => some (.ok (), t, 1)
      | (.error .commandFailed, t) =>
          if d.retry_if_fails then
            (shell_step_loop d overall (t + d.retry_delay) rest).map
              (fun r => (r.1, r.2.1, r.2.2 + 1))
          else some (.error .commandFailed, t, 1)
      | (.error .commandTimedOut, t) =>
          if d.retry_if_fails && slack_check dl t d.retry_delay then
            (shell_step_loop d overall (t + d.retry_delay) rest).map
              (fun r => (r.1, r.2.1, r.2.2 + 1))
          else some (.error .commandTimedOut, t, 1)

/-- shell_step (lines 513-565): the overall deadline is fixed once from
total-timeout before the loop starts. -/
def shell_step (d : ShellStepDetails) (start : Nat)
    (attempts : List AttemptBehavior) : Option (Except CmdError Unit × Nat × Nat) :=
  shell_step_loop d (d.total_timeout.map (fun tt => start + tt)) start attempts

/-- The neutron exceptions delete_subnet distinguishes: the Conflict it
catches, and anything else (uncaught). -/
inductive NeutronErr
  | conflict
  | other
deriving DecidableEq, Repr

/-- One fixed-IP record of a port dict. -/
structure FixedIp where
  subnet_id : String
  ip_address : String
deriving DecidableEq, Repr

/-- A port as listed with device_owner network:router_interface. -/
structure RouterPort where
  device_id : String
  fixed_ips : List FixedIp
deriving DecidableEq, Repr

/-- The port scan inside the Conflict handler of delete_subnet (lines
371-378): for each router-interface port, the first fixed IP on the
subnet sets router_found and detaches that router interface (the break
leaves the inner loop only, so every matching port is detached).  Returns
(router_found, the remove_interface_router calls in order). -/
def detach_router_ports (uuid : String) : List RouterPort → Bool × List (String × String)
  | [] => (false, [])
  | p :: rest =>
      let r := detach_router_ports uuid rest
      if p.fixed_ips.any (fun f => f.subnet_id == uuid) then
        (true, (p.device_id, uuid) :: r.2)
      else r

/-- delete_subnet (lines 365-385): on a Conflict from the first deletion,
scan the router-interface ports; if one referenced the subnet, retry the
deletion once (its outcome, whatever it is, is what the caller sees),
otherwise re-raise the original Conflict.  Other exceptions propagate.
Returns (outcome, remove_interface_router calls, deletion attempts). -/
def delete_subnet (uuid : String) (first_attempt : Except NeutronErr Unit)
    (router_ports : List RouterPort) (second_attempt : Except NeutronErr Unit) :
    Except NeutronErr Unit × List (String × String) × Nat :=
  match first_attempt with
  | .ok _ => (.ok (), [], 1)
  | .error .other => (.error .other, [], 1)
  | .error .conflict =>
      let r := detach_router_ports uuid router_ports
      if r.1 then (second_attempt, r.2, 2)
      else (.error .conflict, r.2, 1)

/-- Python str.endswith on the character sequences. -/
def py_endswith (s sfx : String) : Bool :=
  decide (sfx.data <:+ s.data)

/-- The strip_suffix lambda of detect_existing_resources (lines 296-300):
the identity when the run suffix is empty, otherwise the Python slice
s[:-len(suffix)], which keeps all but the last len(suffix) characters. -/
def strip_suffix (sfx s : String) : String :=
  if sfx = "" then s else String.mk (s.data.take (s.data.length - sfx.data.length))

/-- add_suffix (lines 574-578): appends an underscore and the configured
suffix when one is set (Python truthiness: None and the empty string both
leave the name alone). -/
def add_suffix (suffix : Option String) (s : String) : String :=
  match suffix with
  | some suf => if suf = "" then s else s ++ "_" ++ suf
  | none => s

/-- The run-suffix pattern detect_existing_resources matches against
(line 296: self.add_suffix applied to the empty string). -/
def run_suffix (suffix : Option String) : String :=
  add_suffix suffix ""

/-- The per-kind loop of detect_existing_resources (lines 302-347, the
same shape for networks, security groups and servers): every listed
resource whose name ends with the run suffix has the pattern stripped to
its base name; a base name already in the table raises
DuplicateResourceException (modelled as error carrying the resource
name), otherwise the pair (base name, payload) is added. -/
def detect_existing_names (sfx : String) :
    List (String × String) → List (String × String) →
    Except String (List (String × String))
  | table, [] => .ok table
  | table, (name, payload) :: rest =>
      if py_endswith name sfx then
        let base := strip_suffix sfx name
        if (dict_get table base).isSome then .error name
        else detect_existing_names sfx (table ++ [(base, payload)]) rest
      else detect_existing_names sfx table rest

/-- The matched resources with their stripped base names, in listing
order: what a clean detect_existing_resources pass adds to a table. -/
def matching_bases (sfx : String) (existing : List (String × String)) :
    List (String × String) :=
  (existing.filter (fun e => py_endswith e.1 sfx)).map
    (fun e => (strip_suffix sfx e.1, e.2))

/-- The source field of one declared security-group rule: either another
group's name or a CIDR block. -/
inductive RuleSource
  | source_group (name : String)
  | cidr (block : String)
deriving DecidableEq, Repr

/-- One declared ingress rule of a security group in the stack. -/
structure SecGroupRuleSpec where
  protocol : String
  from_port : Nat
  to_port : Nat
  source : RuleSource
deriving DecidableEq, Repr

/-- The remote reference of a constructed rule: the remote_group_id field
or the remote CIDR field. -/
inductive RemoteRef
  | group (id : String)
  | cidr (block : String)
deriving DecidableEq, Repr

/-- A security-group rule as create_security_group hands it to the
neutron client. -/
structure SecGroupRule where
  port_range_min : Nat
  port_range_max : Nat
  protocol : String
  security_group_id : String
  remote : RemoteRef
deriving DecidableEq, Repr

/-- The rule construction inside create_security_group (lines 474-485):
a source_group name resolves through the secgroups table, falling back to
the literal name itself when absent (dict .get with the name as the
default); a CIDR source fills the remote CIDR field. -/
def build_secgroup_rule (secgroups : List (String × String)) (sg_id : String)
    (rule : SecGroupRuleSpec) : SecGroupRule :=
  { port_range_min := rule.from_port
    port_range_max := rule.to_port
    protocol := rule.protocol
    security_group_id := sg_id
    remote :=
      match rule.source with
      | .source_group n => .group ((dict_get secgroups n).getD n)
      | .cidr c => .cidr c }

/-- What the nova keypair creation call reports: success, a Conflict (the
keypair name exists), or any other exception. -/
inductive NovaKeypairResult
  | ok
  | conflict
  | otherError (msg : String)
deriving DecidableEq, Repr

/-- create_keypair (lines 421-426): the nova Conflict is caught and
passed over; other exceptions propagate; nothing touches the ledger (the
keypair ledger line is written by provision_step, line 586, not here). -/
def create_keypair (name keydata : String) (api : NovaKeypairResult)
    (ledger : Ledger) : Except String Unit × Ledger :=
  match api with
  | .ok => (.ok (), ledger)
  | .conflict => (.ok (), ledger)
  | .otherError m => (.error m, ledger)

/-! ### Helper lemmas -/

lemma str_data_append (s t : String) : (s ++ t).data = s.data ++ t.data := by
  cases s
  cases t
  rfl

lemma first_floating_ip_eq_find (ports : List Port) :
    first_floating_ip ports
      = (ports.find? (fun p => p.floating_ip.isSome)).bind (fun p => p.floating_ip) := by
  induction ports with
  | nil => rfl
  | cons p rest ih =>
      cases hp : p.floating_ip with
      | some a => simp [first_floating_ip, List.find?_cons, hp]
      | none => simp [first_floating_ip, List.find?_cons, hp, ih]

lemma first_floating_ip_eq_none (ports : List Port) :
    first_floating_ip ports = none ↔ ∀ p ∈ ports, p.floating_ip = none := by
  induction ports with
  | nil => simp [first_floating_ip]
  | cons p rest ih =>
      cases hp : p.floating_ip with
      | some a => simp [first_floating_ip, hp]
      | none => simp [first_floating_ip, hp, ih]

lemma dict_get_eq_none (table : List (String × String)) (k : String) :
    dict_get table k = none ↔ ∀ v, (k, v) ∉ table := by
  induction table with
  | nil => simp [dict_get]
  | cons e rest ih =>
      by_cases h : e.1 = k
      · refine ⟨fun hc => absurd hc (by simp [dict_get, h]), fun hall => ?_⟩
        exact absurd (hall e.2) (by simp [← h])
      · simp only [dict_get, h, if_false, ih]
        constructor
        · intro hall v
          simp only [List.mem_cons, not_or]
          exact ⟨fun he => h (by rw [← he]), hall v⟩
        · intro hall v
          have := hall v
          simp only [List.mem_cons, not_or] at this
          exact this.2

lemma cleanup_loop_map_fst (delete : ResourceKind → String → DeleteOutcome)
    (lines : List (ResourceKind × String)) :
    (cleanup_loop delete lines).map Prod.fst = lines := by
  induction lines with
  | nil => rfl
  | cons e rest ih => simp [cleanup_loop, ih]

lemma cleanup_loop_mem (delete : ResourceKind → String → DeleteOutcome)
    (lines : List (ResourceKind × String)) :
    ∀ e ∈ lines, (e, delete e.1 e.2) ∈ cleanup_loop delete lines := by
  induction lines with
  | nil => simp
  | cons a rest ih =>
      intro e he
      rcases List.mem_cons.mp he with h | h
      · subst h
        simp [cleanup_loop]
      · exact List.mem_cons_of_mem _ (ih e h)

lemma errorLoop_trace (rc : Nat) (hrc : rc ≠ 0) :
    ∀ (a : Nat) (tr : List Event),
      errorLoop rc ⟨a, tr⟩
        = ⟨0, tr ++ (List.replicate a [Event.clean, Event.build]).flatten ++ [Event.clean]⟩ := by
  intro a
  induction a with
  | zero =>
      intro tr
      rw [errorLoop]
      simp [clean1, hrc]
  | succ k ih =>
      intro tr
      have hstep : build1 (clean1 ⟨k + 1, tr⟩) = ⟨k, tr ++ [Event.clean, Event.build]⟩ := by
        simp [build1, clean1]
      have hcond : (clean1 (⟨k + 1, tr⟩ : ErrNode)).attempts_left ≠ 0 := by
        simp [clean1]
      rw [errorLoop, if_pos hrc, dif_pos hcond, hstep, ih]
      simp [List.replicate_succ]

lemma count_flatten_replicate (n : Nat) :
    ((List.replicate n [Event.clean, Event.build]).flatten).count Event.build = n := by
  induction n with
  | zero => rfl
  | succ k ih => simp [List.replicate_succ, List.count_append, ih, List.count_cons]

lemma detach_found_iff (uuid : String) (ports : List RouterPort) :
    (detach_router_ports uuid ports).1 = true
      ↔ ∃ p ∈ ports, ∃ f ∈ p.fixed_ips, f.subnet_id = uuid := by
  induction ports with
  | nil => simp [detach_router_ports]
  | cons p rest ih =>
      by_cases hp : p.fixed_ips.any (fun f => f.subnet_id == uuid)
      · have : ∃ f ∈ p.fixed_ips, f.subnet_id = uuid := by
          simpa using hp
        simp [detach_router_ports, hp, this]
      · have : ¬ ∃ f ∈ p.fixed_ips, f.subnet_id = uuid := by
          simpa using hp
        simp [detach_router_ports, hp, ih, this]

lemma detach_calls_eq (uuid : String) (ports : List RouterPort) :
    (detach_router_ports uuid ports).2
      = (ports.filter (fun p => p.fixed_ips.any (fun f => f.subnet_id == uuid))).map
          (fun p => (p.device_id, uuid)) := by
  induction ports with
  | nil => rfl
  | cons p rest ih =>
      by_cases hp : p.fixed_ips.any (fun f => f.subnet_id == uuid)
      · simp [detach_router_ports, hp, List.filter_cons, ih]
      · simp [detach_router_ports, hp, List.filter_cons, ih]

lemma detach_not_found_nil (uuid : String) (ports : List RouterPort)
    (h : (detach_router_ports uuid ports).1 = false) :
    (detach_router_ports uuid ports).2 = [] := by
  induction ports with
  | nil => rfl
  | cons p rest ih =>
      by_cases hp : p.fixed_ips.any (fun f => f.subnet_id == uuid)
      · rw [detach_router_ports, if_pos hp] at h
        exact absurd h (by simp)
      · rw [detach_router_ports, if_neg hp] at h ⊢
        exact ih h

lemma py_endswith_empty (s : String) : py_endswith s "" = true := by
  simp [py_endswith]

lemma strip_suffix_empty (s : String) : strip_suffix "" s = s := by
  simp [strip_suffix]

lemma strip_suffix_append (base sfx : String) (h : sfx ≠ "") :
    strip_suffix sfx (base ++ sfx) = base := by
  unfold strip_suffix
  rw [if_neg h, str_data_append, List.length_append, Nat.add_sub_cancel, List.take_left]

lemma dict_get_append_single (table : List (String × String)) (b v key : String) :
    dict_get (table ++ [(b, v)]) key = none
      ↔ dict_get table key = none ∧ ¬ b = key := by
  induction table with
  | nil => by_cases h : b = key <;> simp [dict_get, h]
  | cons e rest ih =>
      by_cases h : e.1 = key <;> simp [dict_get, h, ih]

lemma matching_bases_cons_skip (sfx name payload : String)
    (rest : List (String × String)) (hm : py_endswith name sfx = false) :
    matching_bases sfx ((name, payload) :: rest) = matching_bases sfx rest := by
  simp [matching_bases, List.filter_cons, hm]

lemma matching_bases_cons_match (sfx name payload : String)
    (rest : List (String × String)) (hm : py_endswith name sfx = true) :
    matching_bases sfx ((name, payload) :: rest)
      = (strip_suffix sfx name, payload) :: matching_bases sfx rest := by
  simp [matching_bases, List.filter_cons, hm]

lemma detect_ok_iff (sfx : String) :
    ∀ (existing table : List (String × String)),
      (∃ t, detect_existing_names sfx table existing = .ok t)
        ↔ ((matching_bases sfx existing).map Prod.fst).Nodup
            ∧ ∀ bp ∈ matching_bases sfx existing, dict_get table bp.1 = none := by
  intro existing
  induction existing with
  | nil => intro table; simp [detect_existing_names, matching_bases]
  | cons e rest ih =>
      intro table
      rcases e with ⟨name, payload⟩
      by_cases hm : py_endswith name sfx
      · rw [matching_bases_cons_match sfx name payload rest hm]
        by_cases hd : (dict_get table (strip_suffix sfx name)).isSome
        · rw [detect_existing_names, if_pos hm, if_pos hd]
          rw [Option.isSome_iff_ne_none] at hd
          simp [hd]
        · rw [detect_existing_names, if_pos hm, if_neg hd]
          rw [Option.isSome_iff_ne_none, not_not] at hd
          rw [ih (table ++ [(strip_suffix sfx name, payload)])]
          simp only [List.map_cons, List.nodup_cons, List.mem_map, List.mem_cons,
            forall_eq_or_imp, hd, dict_get_append_single, true_and]
          constructor
          · rintro ⟨hnodup, hall⟩
            refine ⟨⟨fun hmem => ?_, hnodup⟩, fun bp hbp => (hall bp hbp).1⟩
            obtain ⟨bp, hbp, hfst⟩ := hmem
            exact (hall bp hbp).2 hfst.symm
          · rintro ⟨⟨hnotin, hnodup⟩, hall⟩
            refine ⟨hnodup, fun bp hbp => ⟨hall bp hbp, fun heq => hnotin ⟨bp, hbp, heq.symm⟩⟩⟩
      · rw [matching_bases_cons_skip sfx name payload rest (by simpa using hm)]
        rw [detect_existing_names, if_neg hm]
        exact ih table

lemma detect_ok_val (sfx : String) :
    ∀ (existing table t : List (String × String)),
      detect_existing_names sfx table existing = .ok t →
      t = table ++ matching_bases sfx existing := by
  intro existing
  induction existing with
  | nil =>
      intro table t h
      rw [detect_existing_names] at h
      cases h
      simp [matching_bases]
  | cons e rest ih =>
      intro table t h
      rcases e with ⟨name, payload⟩
      by_cases hm : py_endswith name sfx
      · rw [matching_bases_cons_match sfx name payload rest hm]
        rw [detect_existing_names, if_pos hm] at h
        by_cases hd : (dict_get table (strip_suffix sfx name)).isSome
        · rw [if_pos hd] at h
          cases h
        · rw [if_neg hd] at h
          have := ih (table ++ [(strip_suffix sfx name, payload)]) t h
          simpa using this
      · rw [matching_bases_cons_skip sfx name payload rest (by simpa using hm)]
        rw [detect_existing_names, if_neg hm] at h
        exact ih table t h

lemma run_cmd_once_timeout_inv (now : Nat) (dl : Option Nat) (b : AttemptBehavior)
    (h : (run_cmd_once now dl b).1 = .error .commandTimedOut) :
    ∃ dd, dl = some dd ∧ (run_cmd_once now dl b).2 = dd + 1 ∧ dd < now + b.runsFor := by
  cases dl with
  | none =>
      rw [run_cmd_once] at h
      by_cases hc : b.exitCode = 0 <;> simp [hc] at h
  | some dd =>
      rw [run_cmd_once] at h ⊢
      by_cases hle : now + b.runsFor ≤ dd
      · rw [if_pos hle] at h
        by_cases hc : b.exitCode = 0 <;> simp [hc] at h
      · rw [if_neg hle] at h ⊢
        exact ⟨dd, rfl, rfl, by omega⟩

/-! ### The claims -/

/-- C6: reconciliation strips exactly the run-suffix pattern from each
matching name: under suffix env1, existing servers web_env1 and web2_env1
reduce to the distinct base names web and web2 with no collision, the
stripped base of any name of the shape base ++ pattern is that base, and
two same-kind resources reducing to one base name are exactly what makes
the pass raise DuplicateResourceException. -/
theorem detect_existing_strip_and_duplicates :
    detect_existing_names (run_suffix (some "env1")) []
        [("web_env1", "web_env1"), ("web2_env1", "web2_env1")]
      = .ok [("web", "web_env1"), ("web2", "web2_env1")]
      ∧ (∀ base sfx : String, sfx ≠ "" → strip_suffix sfx (base ++ sfx) = base)
      ∧ (∀ (sfx : String) (existing : List (String × String)),
          (∃ t, detect_existing_names sfx [] existing = .ok t)
            ↔ ((matching_bases sfx existing).map Prod.fst).Nodup)
      ∧ (∀ (sfx : String) (existing : List (String × String)),
          ¬ ((matching_bases sfx existing).map Prod.fst).Nodup →
            ∃ n, detect_existing_names sfx [] existing = .error n) := by
  have hok : ∀ (sfx : String) (existing : List (String × String)),
      (∃ t, detect_existing_names sfx [] existing = .ok t)
        ↔ ((matching_bases sfx existing).map Prod.fst).Nodup := by
    intro sfx existing
    rw [detect_ok_iff sfx existing []]
    simp [dict_get]
  refine ⟨rfl, strip_suffix_append, hok, fun sfx existing hdup => ?_⟩
  cases hres : detect_existing_names sfx [] existing with
  | ok t => exact absurd ((hok sfx existing).mp ⟨t, hres⟩) hdup
  | error n => exact ⟨n, rfl⟩

/-- C10: with no run suffix configured, the pattern is empty, so every
existing resource name matches and nothing is stripped: reconciliation
takes every listed resource with its full name as base name (here for one
kind's table, given the names are pairwise distinct as the cloud lists
them). -/
theorem detect_existing_no_suffix :
    run_suffix none = ""
      ∧ (∀ name : String, py_endswith name "" = true)
      ∧ (∀ name : String, strip_suffix "" name = name)
      ∧ (∀ existing : List (String × String),
          (existing.map Prod.fst).Nodup →
            detect_existing_names "" [] existing = .ok existing) := by
  have hmb : ∀ existing : List (String × String),
      matching_bases "" existing = existing := by
    intro existing
    unfold matching_bases
    rw [List.filter_eq_self.mpr (fun e _ => py_endswith_empty e.1)]
    simp [strip_suffix_empty]
  refine ⟨rfl, py_endswith_empty, strip_suffix_empty, fun existing hnd => ?_⟩
  have hex : ∃ t, detect_existing_names "" [] existing = .ok t := by
    rw [detect_ok_iff "" existing []]
    rw [hmb]
    simp [dict_get, hnd]
  obtain ⟨t, ht⟩ := hex
  have hval := detect_ok_val "" existing [] t ht
  rw [hmb] at hval
  simpa [hval] using ht

/-- C4: after one shell_step attempt, a failed command is retried (after
the retry-delay wait) exactly when retry-if-fails is set; a timed-out
command is retried exactly when retry-if-fails is set and the slack guard
time + retry-delay < deadline still holds — and since a timeout only
occurs once the clock has passed that very deadline, the guard is always
false, so the CommandTimedOutException propagates after the single
attempt; with retry-if-fails unset exactly one attempt is made and its
outcome propagates, whatever it is. -/
theorem shell_step_retry_policy (d : ShellStepDetails) (overall : Option Nat)
    (now : Nat) (b : AttemptBehavior) (rest : List AttemptBehavior) :
    (d.retry_if_fails = false →
        shell_step_loop d overall now (b :: rest)
          = some ((run_cmd_once now (shell_step_deadline now overall d.timeout) b).1,
              (run_cmd_once now (shell_step_deadline now overall d.timeout) b).2, 1))
      ∧ ((run_cmd_once now (shell_step_deadline now overall d.timeout) b).1 = .ok () →
          shell_step_loop d overall now (b :: rest)
            = some (.ok (),
                (run_cmd_once now (shell_step_deadline now overall d.timeout) b).2, 1))
      ∧ ((run_cmd_once now (shell_step_deadline now overall d.timeout) b).1
            = .error .commandFailed →
          shell_step_loop d overall now (b :: rest)
            = if d.retry_if_fails then
                (shell_step_loop d overall
                    ((run_cmd_once now (shell_step_deadline now overall d.timeout) b).2
                      + d.retry_delay) rest).map (fun r => (r.1, r.2.1, r.2.2 + 1))
              else some (.error .commandFailed,
                  (run_cmd_once now (shell_step_deadline now overall d.timeout) b).2, 1))
      ∧ ((run_cmd_once now (shell_step_deadline now overall d.timeout) b).1
            = .error .commandTimedOut →
          slack_check (shell_step_deadline now overall d.timeout)
              (run_cmd_once now (shell_step_deadline now overall d.timeout) b).2
              d.retry_delay = false
            ∧ shell_step_loop d overall now (b :: rest)
              = some (.error .commandTimedOut,
                  (run_cmd_once now (shell_step_deadline now overall d.timeout) b).2, 1)) := by
  rcases hrc : run_cmd_once now (shell_step_deadline now overall d.timeout) b with ⟨r, t⟩
  refine ⟨fun hflag => ?_, fun hr1 => ?_, fun hr1 => ?_, fun hr1 => ?_⟩
  · cases r with
    | ok u => simp [shell_step_loop, hrc]
    | error e => cases e <;> simp [shell_step_loop, hrc, hflag]
  · simp only at hr1
    subst hr1
    simp [shell_step_loop, hrc]
  · simp only at hr1
    subst hr1
    by_cases hflag : d.retry_if_fails <;> simp [shell_step_loop, hrc, hflag]
  · simp only at hr1
    subst hr1
    have hinv := run_cmd_once_timeout_inv now (shell_step_deadline now overall d.timeout) b
      (by rw [hrc])
    rw [hrc] at hinv
    obtain ⟨dd, hdl, ht, hlt⟩ := hinv
    simp only at ht
    subst ht
    have hslack : slack_check (shell_step_deadline now overall d.timeout) (dd + 1)
        d.retry_delay = false := by
      rw [hdl, slack_check]
      simp
      omega
    refine ⟨hslack, ?_⟩
    simp [shell_step_loop, hrc, hslack]

/-- C5: when the first subnet deletion raises a Conflict, the engine
scans the router-interface ports for one whose fixed IPs reference the
subnet; with a match it detaches the router interface (one detach call
per matching port, in listing order) and retries the deletion exactly
once, the retry's outcome propagating; with no match the original
Conflict is re-raised unchanged after the single attempt, with nothing
detached.  Without a Conflict there is exactly one deletion attempt. -/
theorem delete_subnet_router_conflict (uuid : String) (ports : List RouterPort)
    (second_attempt : Except NeutronErr Unit) :
    ((detach_router_ports uuid ports).1 = true
        ↔ ∃ p ∈ ports, ∃ f ∈ p.fixed_ips, f.subnet_id = uuid)
      ∧ (detach_router_ports uuid ports).2
          = (ports.filter (fun p => p.fixed_ips.any (fun f => f.subnet_id == uuid))).map
              (fun p => (p.device_id, uuid))
      ∧ ((detach_router_ports uuid ports).1 = true →
          delete_subnet uuid (.error .conflict) ports second_attempt
            = (second_attempt, (detach_router_ports uuid ports).2, 2))
      ∧ ((detach_router_ports uuid ports).1 = false →
          delete_subnet uuid (.error .conflict) ports second_attempt
            = (.error .conflict, [], 1))
      ∧ delete_subnet uuid (.ok ()) ports second_attempt = (.ok (), [], 1) := by
  refine ⟨detach_found_iff uuid ports, detach_calls_eq uuid ports, fun h => ?_, fun h => ?_, rfl⟩
  · simp [delete_subnet, h]
  · simp [delete_subnet, h, detach_not_found_nil uuid ports h]

/-- C8: Node.floating_ip returns the floating-IP address of the first
port in the ports list that carries one, and None when no port carries
one (in particular on an empty ports list). -/
theorem floating_ip_first (node : Node) :
    Node.floating_ip node
        = (node.ports.find? (fun p => p.floating_ip.isSome)).bind (fun p => p.floating_ip)
      ∧ (Node.floating_ip node = none ↔ ∀ p ∈ node.ports, p.floating_ip = none)
      ∧ (node.ports = [] → Node.floating_ip node = none) := by
  refine ⟨first_floating_ip_eq_find node.ports, first_floating_ip_eq_none node.ports, ?_⟩
  intro h
  simp [Node.floating_ip, h, first_floating_ip]

/-- C9: create_keypair returns normally when the cloud reports a Conflict
(the keypair name already exists), and it leaves the ledger untouched for
every cloud answer. -/
theorem create_keypair_idempotent (name keydata : String) (ledger : Ledger) :
    create_keypair name keydata .conflict ledger = (.ok (), ledger)
      ∧ ∀ api, (create_keypair name keydata api ledger).2 = ledger := by
  refine ⟨rfl, fun api => ?_⟩
  cases api <;> rfl

/-- C7: a rule whose source_group name is absent from the security-group
table keeps the literal name as the remote group reference; a present
name resolves to its id. -/
theorem secgroup_rule_fallback (secgroups : List (String × String))
    (sg_id n protocol : String) (a b : Nat) :
    (dict_get secgroups n = none →
        (build_secgroup_rule secgroups sg_id
            ⟨protocol, a, b, .source_group n⟩).remote = .group n)
      ∧ (dict_get secgroups n = none ↔ ∀ gid, (n, gid) ∉ secgroups)
      ∧ (∀ gid, dict_get secgroups n = some gid →
          (build_secgroup_rule secgroups sg_id
              ⟨protocol, a, b, .source_group n⟩).remote = .group gid) := by
  refine ⟨fun h => ?_, dict_get_eq_none secgroups n, fun gid h => ?_⟩
  · simp [build_secgroup_rule, h]
  · simp [build_secgroup_rule, h]

lemma create_nics_ledger (pids : Nat → PortIds) (networks : List NetworkAttachment) :
    ∀ (i : Nat) (ledger : Ledger),
      (create_nics ledger_record pids i ledger networks).1
        = ledger ++ nic_entries pids i networks := by
  induction networks with
  | nil => intro i ledger; simp [create_nics, nic_entries]
  | cons att rest ih =>
      intro i ledger
      by_cases hf : att.assign_floating_ip
      · simp [create_nics, nic_entries, hf, ledger_record, create_floating_ip, ih]
      · simp [create_nics, nic_entries, hf, ledger_record, ih]

lemma nic_entries_counts (pids : Nat → PortIds) (networks : List NetworkAttachment) :
    ∀ i : Nat,
      ((nic_entries pids i networks).countP (fun e => e.kind == ResourceKind.volume) = 0)
      ∧ ((nic_entries pids i networks).countP (fun e => e.kind == ResourceKind.server) = 0)
      ∧ ((nic_entries pids i networks).countP (fun e => e.kind == ResourceKind.port)
          = networks.length)
      ∧ ((nic_entries pids i networks).countP (fun e => e.kind == ResourceKind.floatingip)
          = networks.countP (fun a => a.assign_floating_ip)) := by
  induction networks with
  | nil => intro i; simp [nic_entries]
  | cons att rest ih =>
      intro i
      obtain ⟨h1, h2, h3, h4⟩ := ih (i + 1)
      by_cases hf : att.assign_floating_ip
      · simp [nic_entries, hf, List.countP_cons, List.countP_append, h1, h2, h3, h4]
      · simp [nic_entries, hf, List.countP_cons, List.countP_append, h1, h2, h3, h4]

/-- C1: what one Node.build appends to the ledger when cleanup tracking
is on.  Every port, every requested floating IP and the server are each
recorded as they are created; the volume is NOT: line 207 records it
through the node's own record_resource, the no-op lambda installed in
Node.__init__ (line 135) and never replaced, so the appended lines hold
one port entry per attachment, one floatingip entry per flagged
attachment, one server entry, and zero volume entries. -/
theorem build_records_no_volume (pids : Nat → PortIds) (volume_id server_id : String)
    (networks : List NetworkAttachment) (ledger : Ledger) :
    (Node.build_run pids volume_id server_id networks ledger).1
        = ledger ++ build_delta pids networks server_id
      ∧ (build_delta pids networks server_id).countP
          (fun e => e.kind == ResourceKind.volume) = 0
      ∧ (build_delta pids networks server_id).countP
          (fun e => e.kind == ResourceKind.server) = 1
      ∧ (build_delta pids networks server_id).countP
          (fun e => e.kind == ResourceKind.port) = networks.length
      ∧ (build_delta pids networks server_id).countP
          (fun e => e.kind == ResourceKind.floatingip)
          = networks.countP (fun a => a.assign_floating_ip) := by
  obtain ⟨h1, h2, h3, h4⟩ := nic_entries_counts pids networks 0
  refine ⟨?_, ?_, ?_, ?_, ?_⟩
  · rw [Node.build_run, Node.build]
    simp only [node_record_resource, ledger_record, create_nics_ledger]
    simp [build_delta]
  · simp [build_delta, List.countP_append, h1]
  · simp [build_delta, List.countP_append, h2]
  · simp [build_delta, List.countP_append, h3]
  · simp [build_delta, List.countP_append, h4]

/-- C2: a node whose poll answers ERROR on every round, under a retry
budget of R, has build() invoked exactly R+1 times in total before
ProvisionFailedException is raised: the initial build from _create_node,
then R rebuilds in the pending loop, each preceded by a clean (the final
round, when retries exist, cleans once more and raises). -/
theorem node_error_retry_builds (R : Nat) :
    (provision_error_node R).trace
        = Event.build ::
            ((List.replicate R [Event.clean, Event.build]).flatten
              ++ if R = 0 then [] else [Event.clean])
      ∧ (provision_error_node R).trace.count Event.build = R + 1 := by
  cases R with
  | zero =>
      constructor
      · rw [provision_error_node, errorLoop]
        simp [build1]
      · rw [provision_error_node, errorLoop]
        simp [build1, List.count_cons]
  | succ k =>
      have hinit : build1 ⟨k + 1 + 1, []⟩ = (⟨k + 1, [Event.build]⟩ : ErrNode) := by
        simp [build1]
      have h := errorLoop_trace (k + 1) (Nat.succ_ne_zero k) (k + 1) [Event.build]
      constructor
      · rw [provision_error_node, hinit, h]
        simp
      · rw [provision_error_node, hinit, h]
        simp [List.count_append, List.count_cons, count_flatten_replicate]

/-- C3: cleanup dispatches exactly one delete per ledger line, in exactly
the reverse of append order, and every entry is processed whatever each
delete raises: the dispatched-call trace projects to the reversed lines
for every delete behavior, and each line's dispatched call appears in the
trace. -/
theorem cleanup_reverse_dispatch (delete : ResourceKind → String → DeleteOutcome)
    (lines : List (ResourceKind × String)) :
    (cleanup delete lines).map Prod.fst = lines.reverse
      ∧ (cleanup delete lines).length = lines.length
      ∧ ∀ e ∈ lines, (e, delete e.1 e.2) ∈ cleanup delete lines := by
  refine ⟨cleanup_loop_map_fst delete lines.reverse, ?_, fun e he => ?_⟩
  · have h := congrArg List.length (cleanup_loop_map_fst delete lines.reverse)
    simpa using h
  · exact cleanup_loop_mem delete lines.reverse e (List.mem_reverse.mpr he)

end Overcast
